import Mathlib

/-!
Verification of the Board Interaction & Synchronization Engine of the
Picross-W-WASM repository (src/src/board.rs and src/src/main.rs).

The Rust code is shallowly embedded: Bevy systems become pure functions on
explicit state, event writers become lists of emitted events/messages, and
`f32` pixel arithmetic is modelled by exact rationals (`ℚ`).  Tile
coordinates carried by `InputEvent` are integral floats in the code (always
produced by `floor` or by casting an integer), so they are modelled by `Int`.

The puzzle container itself comes from the external `picross_handler` crate
(the spec's external PuzzleStore collaborator); its operations are modelled
from the spec where marked.
-/

namespace PicrossW

/-- Cell states of the puzzle grid, `picross_handler::Cell`. -/
inductive Cell where
  | Empty
  | Filled
  | Crossed
deriving DecidableEq, Repr

/-- `BoardAction` from board.rs: the three paint actions. -/
inductive BoardAction where
  | Fill
  | Cross
  | Empty
deriving DecidableEq, Repr

/-- Modelled from the spec: the external PuzzleStore (`picross_handler::Puzzle`).
Cells are stored row-major; clue lists per row and per column. -/
structure Puzzle where
  width : Nat
  height : Nat
  rowClues : List (List Nat)
  colClues : List (List Nat)
  cells : List Cell
deriving DecidableEq, Repr

namespace Puzzle

/-- Modelled from the spec: `get_width`. -/
def get_width (p : Puzzle) : Nat := p.width

/-- Modelled from the spec: `get_height` (play-region height in cells). -/
def get_height (p : Puzzle) : Nat := p.height

/-- Modelled from the spec: `get_longest_row_clue_len` — the row-clue gutter
is sized to the longest row clue list. -/
def get_longest_row_clue_len (p : Puzzle) : Nat :=
  (p.rowClues.map List.length).foldr max 0

/-- Modelled from the spec: `get_longest_column_clue_len`. -/
def get_longest_column_clue_len (p : Puzzle) : Nat :=
  (p.colClues.map List.length).foldr max 0

/-- Modelled from the spec: `get_pos` — the row-major linear index of a play
cell (spec scenario: width 5, x=2, y=2 ↦ 12, so `pos = y*width + x`). -/
def get_pos (p : Puzzle) (x y : Nat) : Nat := y * p.width + x

/-- Modelled from the spec: `get_cell` reads the row-major cell store. -/
def get_cell (p : Puzzle) (x y : Nat) : Cell :=
  p.cells.getD (y * p.width + x) Cell.Empty

/-- Modelled from the spec: `set_cell` writes the row-major cell store. -/
def set_cell (p : Puzzle) (x y : Nat) (c : Cell) : Puzzle :=
  { p with cells := p.cells.set (y * p.width + x) c }

/-- Total board width in tiles: play width plus the row-clue gutter
(board.rs `total_board_width`). -/
def totalW (p : Puzzle) : Nat := p.get_width + p.get_longest_row_clue_len

/-- Total board height in tiles: play height plus the column-clue gutter
(board.rs `total_board_height`). -/
def totalH (p : Puzzle) : Nat := p.get_height + p.get_longest_column_clue_len

end Puzzle

/-- `InputEvent` from board.rs.  The `x`/`y` fields are `f32` in the code but
always hold integral tile indices (floored cursor positions or casts of
integers), so they are embedded as `Int`. -/
structure InputEvent where
  x : Int
  y : Int
  action : BoardAction
  from_player : Bool
deriving DecidableEq, Repr

/-- The four coordinate regions of tile-index space (spec §4.2; the branch
structure of `input_event_system` distinguishes the first three, and the
clue-spawning code of `spawn_tiles_event_system` splits the clue gutter into
the row-clue strip (`x < longest_row_clue_len`) and the column-clue strip
(`x ≥ longest_row_clue_len`)). -/
inductive Region where
  | Control
  | ClueRow
  | ClueColumn
  | Play
deriving DecidableEq, Repr

/-- The region classification implemented by the `if`/`else if`/`else` chain
of `input_event_system` (board.rs lines 545–570): Control when
`x < longest_row_clue_len ∧ y ≥ height`, clue gutter when exactly one of the
two conditions holds, play otherwise. -/
def classify (p : Puzzle) (x y : Int) : Region :=
  if x < (p.get_longest_row_clue_len : Int) ∧ y ≥ (p.get_height : Int) then
    Region.Control
  else if x < (p.get_longest_row_clue_len : Int) ∨ y ≥ (p.get_height : Int) then
    (if x < (p.get_longest_row_clue_len : Int) then Region.ClueRow else Region.ClueColumn)
  else
    Region.Play

/-- The set of tile positions spawned by `spawn_tiles_event_system`
(board.rs lines 290–392): `x` ranges over `0..total_board_width`, `y` over
`0..total_board_height`, and the control corner
(`x < longest_row_clue_len ∧ y ≥ height`) is skipped by the `continue`. -/
def spawnSet (p : Puzzle) : List (Nat × Nat) :=
  (List.range p.totalW).flatMap (fun x =>
    (List.range p.totalH).filterMap (fun y =>
      if p.get_longest_row_clue_len ≤ x ∨ y < p.get_height then some (x, y) else none))

/-- The cell character sent on the wire for a `Delta` (board.rs lines
584–588): `'0'`/`'1'`/`'X'` for Empty/Filled/Crossed. -/
def cellStr (c : Cell) : String :=
  match c with
  | Cell.Empty => "0"
  | Cell.Filled => "1"
  | Cell.Crossed => "X"

/-- The target cell state of a paint action (the `match event.action` arms at
board.rs lines 602–612). -/
def actionCell (a : BoardAction) : Cell :=
  match a with
  | BoardAction.Fill => Cell.Filled
  | BoardAction.Cross => Cell.Crossed
  | BoardAction.Empty => Cell.Empty

/-- The `set_cell` closure of `input_event_system` (board.rs lines 575–600):
convert the tile x to a grid-local x by subtracting the row-clue gutter
width, compare the target state with the current state, and only on a real
change write the cell and — only for a player-originated event — emit the
outbound `("c", "<linearIndex>,<cellChar>")` delta.  `as usize` on an
integral non-negative `f32` is `Int.toNat`. -/
def set_cell_closure (p : Puzzle) (fromPlayer : Bool) (x y : Int) (cell : Cell) :
    Puzzle × List (String × String) :=
  let x_diff := p.get_longest_row_clue_len
  let gx := x.toNat - x_diff
  let gy := y.toNat
  let current_cell := p.get_cell gx gy
  if current_cell ≠ cell then
    let p2 := p.set_cell gx gy cell
    (p2,
      if fromPlayer then
        [("c", toString (p2.get_pos gx gy) ++ "," ++ cellStr cell)]
      else [])
  else
    (p, [])

/-- Clue text entities (the `Clue` component plus its rendered text color):
the clue branch of `input_event_system` recolors the matching clue. -/
inductive ClueColor where
  | Red
  | Gray
  | Black
deriving DecidableEq, Repr

structure ClueEnt where
  x : Int
  y : Int
  color : ClueColor
deriving DecidableEq, Repr

/-- The color assigned to a clue by the clue branch of `input_event_system`
(board.rs lines 557–567). -/
def clueColorOf (a : BoardAction) : ClueColor :=
  match a with
  | BoardAction.Fill => ClueColor.Red
  | BoardAction.Cross => ClueColor.Gray
  | BoardAction.Empty => ClueColor.Black

/-- The control-mode toggle of the Control branch (board.rs lines 547–551). -/
def toggleControl (a : BoardAction) : BoardAction :=
  match a with
  | BoardAction.Fill => BoardAction.Cross
  | BoardAction.Cross => BoardAction.Fill
  | BoardAction.Empty => BoardAction.Fill

/-- The mutable state read and written by `input_event_system`: the puzzle
resource, the control-mode resource, the spawned play/clue tile entities
(identified by their tile coordinates) and the clue text entities. -/
structure EngineState where
  p : Puzzle
  control_action : BoardAction
  tiles : List (Nat × Nat)
  clues : List ClueEnt
deriving Repr

/-- The body of the tile loop (`for (mut texture, tile) in tile_query`,
board.rs lines 572–614): for each spawned tile whose coordinates equal the
event's, run the `set_cell` closure on the current board, accumulating any
sent message. -/
def tile_step (ev : InputEvent) (acc : Puzzle × List (String × String)) (t : Nat × Nat) :
    Puzzle × List (String × String) :=
  if (t.1 : Int) = ev.x ∧ (t.2 : Int) = ev.y then
    let r2 := set_cell_closure acc.1 ev.from_player ev.x ev.y (actionCell ev.action)
    (r2.1, acc.2 ++ r2.2)
  else acc

/-- One iteration of `input_event_system`'s event loop (board.rs lines
539–624) on a single `InputEvent`, returning the updated state and the list
of messages sent on the `WASMSendChannel`.  The Control branch toggles the
mode, the clue branch recolors matching clue texts, and the tile branch runs
the `set_cell` closure once per matching spawned tile.  (The trailing
control-tile texture refresh is pure rendering and carries no state beyond
`control_action`, which it only reads.) -/
def input_event_system (s : EngineState) (ev : InputEvent) :
    EngineState × List (String × String) :=
  if ev.x < (s.p.get_longest_row_clue_len : Int) ∧ ev.y ≥ (s.p.get_height : Int) then
    ({ s with control_action := toggleControl s.control_action }, [])
  else if ev.x < (s.p.get_longest_row_clue_len : Int) ∨ ev.y ≥ (s.p.get_height : Int) then
    ({ s with clues := s.clues.map (fun c =>
        if c.x = ev.x ∧ c.y = ev.y then { c with color := clueColorOf ev.action } else c) }, [])
  else
    let r := s.tiles.foldl (tile_step ev) (s.p, [])
    ({ s with p := r.1 }, r.2)

/-- `WinSize` resource (main.rs lines 40–44); `f32` modelled as `ℚ`. -/
structure WinSize where
  w : ℚ
  h : ℚ
deriving DecidableEq, Repr

/-- The layout fields of the `Board` resource (board.rs lines 51–59) written
by `resize_board_struct`. -/
structure BoardLayout where
  tile_scale : ℚ
  pixels_per_tile : ℚ
  origin : ℚ × ℚ
  h : Nat
  w : Nat
deriving DecidableEq, Repr

/-- `TILE_SIZE` (main.rs line 25). -/
def TILE_SIZE : ℚ × ℚ := (100, 100)

/-- `resize_board_struct` (board.rs lines 171–208): pick the limiting axis by
comparing viewport width with viewport height, derive pixels-per-tile from
the total tile count on that axis, zero the origin there and center the other
axis.  `f32` arithmetic is modelled exactly over `ℚ`. -/
def resize_board_struct (p : Puzzle) (win : WinSize) : BoardLayout :=
  let total_board_width := p.get_width + p.get_longest_row_clue_len
  let total_board_height := p.get_height + p.get_longest_column_clue_len
  if win.w < win.h then
    let pixels_per_tile := win.w / (total_board_width : ℚ)
    { tile_scale := pixels_per_tile / TILE_SIZE.1
      pixels_per_tile := pixels_per_tile
      origin := (0, (win.h - ((total_board_height : ℚ) * pixels_per_tile)) / 2)
      w := total_board_width
      h := total_board_height }
  else
    let pixels_per_tile := win.h / (total_board_height : ℚ)
    { tile_scale := pixels_per_tile / TILE_SIZE.2
      pixels_per_tile := pixels_per_tile
      origin := ((win.w - ((total_board_width : ℚ) * pixels_per_tile)) / 2, 0)
      w := total_board_width
      h := total_board_height }

/-- The row-major traversal order of `board_update_event_system`'s nested
loops (`for y in 0..height { for x in 0..width { ... } }`). -/
def rowMajor (w h : Nat) : List (Nat × Nat) :=
  (List.range h).flatMap (fun y => (List.range w).map (fun x => (x, y)))

/-- One step of `board_update_event_system`'s inner loop (board.rs lines
661–689): the iterator yields the character at linear index `y*width + x`;
`'0'`/`'1'`/`'X'` send a remote-flagged `InputEvent` at tile
`(x + longest_row_clue_len, y)`, any other character (or iterator
exhaustion) emits a warning instead. -/
def board_update_step (p : Puzzle) (cells : List Char) (acc : List InputEvent × List String)
    (xy : Nat × Nat) : List InputEvent × List String :=
  let input_event : BoardAction → InputEvent := fun a =>
    { x := ((xy.1 + p.get_longest_row_clue_len : Nat) : Int)
      y := (xy.2 : Int)
      action := a
      from_player := false }
  match cells[xy.2 * p.get_width + xy.1]? with
  | some '0' => (acc.1 ++ [input_event BoardAction.Empty], acc.2)
  | some '1' => (acc.1 ++ [input_event BoardAction.Fill], acc.2)
  | some 'X' => (acc.1 ++ [input_event BoardAction.Cross], acc.2)
  | some c => (acc.1, acc.2 ++ ["Invalid BoardUpdateEvent, Incorrect Cell: " ++ toString c])
  | none => (acc.1, acc.2 ++ ["Invalid BoardUpdateEvent, Ran out of input"])

/-- `board_update_event_system` (board.rs lines 650–699) on a single
`BoardUpdateEvent` carrying a full-board cells string: if the character count
matches `width * height`, walk the grid row-major sending one remote
`InputEvent` per recognized character and one warning per unrecognized one;
otherwise emit the size warning and send nothing. -/
def board_update_event_system (p : Puzzle) (cells : List Char) :
    List InputEvent × List String :=
  if p.get_width * p.get_height = cells.length then
    (rowMajor p.get_width p.get_height).foldl (board_update_step p cells) ([], [])
  else
    ([], ["Invalid BoardUpdateEvent, Incorrect size: " ++ toString cells.length
          ++ ", Expected: " ++ toString (p.get_width * p.get_height)])

/-- The event, if any, that `board_update_event_system` forwards for the
grid position `xy`: one remote-flagged `InputEvent` per character in the
update alphabet `{'0','1','X'}`, none for any other character (or for a
missing one). -/
def board_update_decode (p : Puzzle) (cells : List Char) (xy : Nat × Nat) :
    Option InputEvent :=
  match cells[xy.2 * p.get_width + xy.1]? with
  | some '0' => some { x := ((xy.1 + p.get_longest_row_clue_len : Nat) : Int),
                       y := (xy.2 : Int), action := BoardAction.Empty, from_player := false }
  | some '1' => some { x := ((xy.1 + p.get_longest_row_clue_len : Nat) : Int),
                       y := (xy.2 : Int), action := BoardAction.Fill, from_player := false }
  | some 'X' => some { x := ((xy.1 + p.get_longest_row_clue_len : Nat) : Int),
                       y := (xy.2 : Int), action := BoardAction.Cross, from_player := false }
  | _ => none

/-- The warning, if any, that `board_update_event_system` logs for the grid
position `xy`: one per out-of-alphabet character (and one if the iterator
ran out). -/
def board_update_warn (p : Puzzle) (cells : List Char) (xy : Nat × Nat) :
    Option String :=
  match cells[xy.2 * p.get_width + xy.1]? with
  | some '0' => none
  | some '1' => none
  | some 'X' => none
  | some c => some ("Invalid BoardUpdateEvent, Incorrect Cell: " ++ toString c)
  | none => some "Invalid BoardUpdateEvent, Ran out of input"

/-- Modelled from the spec: `picross_handler`'s `set_board_from_string`
(spec §4.5 / §6 `loadCells`): the cells text must have length exactly
`width * height` over `{'0','1','X'}`; a wrong length rejects the whole
string (grid untouched), an out-of-alphabet character is skipped; the `Bool`
is the success flag of the returned `Result`. -/
def set_board_from_string (p : Puzzle) (cells : String) : Puzzle × Bool :=
  let cs := cells.toList
  if cs.length = p.width * p.height then
    (cs.enum.foldl (fun q ic =>
        match ic.2 with
        | '0' => q.set_cell (ic.1 % p.width) (ic.1 / p.width) Cell.Empty
        | '1' => q.set_cell (ic.1 % p.width) (ic.1 / p.width) Cell.Filled
        | 'X' => q.set_cell (ic.1 % p.width) (ic.1 / p.width) Cell.Crossed
        | _ => q) p,
     cs.all (fun c => c = '0' ∨ c = '1' ∨ c = 'X'))
  else
    (p, false)

/-- `NewBoardEvent` as consumed by board.rs (clues text and cells text). -/
structure NewBoardEvent where
  clues : String
  cells : String
deriving DecidableEq, Repr

/-- `RedrawEvent` (board.rs lines 104–107). -/
structure RedrawEvent where
  width : ℚ
  height : ℚ
deriving DecidableEq, Repr

/-- The `Board` resource as far as `new_board_event_system` touches it:
the puzzle and the layout fields. -/
structure BoardRes where
  p : Puzzle
  layout : BoardLayout
deriving Repr

/-- `new_board_event_system` (board.rs lines 627–648) on one `NewBoardEvent`.
`Puzzle::from_string` lives in the external `picross_handler` crate, so the
parser is passed in abstractly as `parse`; the code then loads the cells
string (discarding the returned `Result`), swaps the parsed puzzle into the
`Board` resource, recomputes the layout and requests a redraw — or, on a
parse error, only logs the warning. -/
def new_board_event_system (parse : String → Except String Puzzle)
    (win : WinSize) (b : BoardRes) (ev : NewBoardEvent) :
    BoardRes × List RedrawEvent × List String :=
  match parse ev.clues with
  | Except.ok new_p =>
      let new_p2 := (set_board_from_string new_p ev.cells).1
      ({ p := new_p2, layout := resize_board_struct new_p2 win },
       [{ width := win.w, height := win.h }], [])
  | Except.error err => (b, [], [err])

/-- `receive_channel_system` (main.rs lines 204–219): pull one `(tag, data)`
pair; tag `"n"` forwards a new-board event, every other tag falls into the
catch-all arm, which does nothing (no event, no warning).  Returned: the
`NewBoardEvent` payloads forwarded and the warnings logged. -/
def receive_channel_system (msg : String × String) : List String × List String :=
  if msg.1 = "n" then ([msg.2], []) else ([], [])

/-- The state threaded through the teardown/rebuild event pipeline
(`redraw_event_system`, `delete_tiles_event_system`,
`spawn_tiles_event_system`): the `WinSize` resource, the layout fields of the
`Board` resource, the pending event queues, and two counters recording how
many teardown passes and how many spawn passes have executed. -/
structure SchedState where
  p : Puzzle
  win : WinSize
  layout : BoardLayout
  redrawQ : List RedrawEvent
  deleteQ : Nat
  deletedQ : Nat
  spawnQ : Nat
  teardowns : Nat
  spawns : Nat
deriving Repr

/-- `redraw_event_system` (board.rs lines 151–169): the first loop stores
each pending `RedrawEvent`'s size into `WinSize` and sends one
`DeleteTilesEvent` per event; the second loop, once per pending
`DeletedTilesEvent`, recomputes the layout from the current `WinSize` and
sends one `SpawnTilesEvent`. -/
def redraw_event_system_step (s : SchedState) : SchedState :=
  let s1 := s.redrawQ.foldl (fun acc ev =>
    { acc with win := { w := ev.width, h := ev.height }, deleteQ := acc.deleteQ + 1 })
    { s with redrawQ := [] }
  (List.range s1.deletedQ).foldl (fun acc _ =>
    { acc with layout := resize_board_struct acc.p acc.win, spawnQ := acc.spawnQ + 1 })
    { s1 with deletedQ := 0 }

/-- `delete_tiles_event_system` (board.rs lines 210–233): once per pending
`DeleteTilesEvent`, despawn every tile/clue/control entity (counted here as
one teardown pass) and send one `DeletedTilesEvent`. -/
def delete_tiles_event_system_step (s : SchedState) : SchedState :=
  (List.range s.deleteQ).foldl (fun acc _ =>
    { acc with teardowns := acc.teardowns + 1, deletedQ := acc.deletedQ + 1 })
    { s with deleteQ := 0 }

/-- `spawn_tiles_event_system` (board.rs lines 235–394): once per pending
`SpawnTilesEvent`, rebuild every visual entity from the current board
(counted here as one spawn pass). -/
def spawn_tiles_event_system_step (s : SchedState) : SchedState :=
  (List.range s.spawnQ).foldl (fun acc _ =>
    { acc with spawns := acc.spawns + 1 })
    { s with spawnQ := 0 }

/-- One scheduler tick over the three pipeline systems, in the plugin's
registration order (board.rs lines 121–124: spawn, delete, …, redraw).
Each system drains the events pending for it; events a system emits are seen
by consumers that run later in the same tick (`deletedQ`, emitted by delete
and consumed by redraw) or on the next tick (`deleteQ` and `spawnQ`, whose
consumers have already run). -/
def sched_tick (s : SchedState) : SchedState :=
  redraw_event_system_step (delete_tiles_event_system_step (spawn_tiles_event_system_step s))

section Lemmas

/-- Membership in the spawned-tile set: exactly the in-range positions
outside the control corner. -/
lemma mem_spawnSet {p : Puzzle} {a b : Nat} :
    (a, b) ∈ spawnSet p ↔
      a < p.totalW ∧ b < p.totalH ∧
        (p.get_longest_row_clue_len ≤ a ∨ b < p.get_height) := by
  simp only [spawnSet, List.mem_flatMap, List.mem_filterMap, List.mem_range]
  constructor
  · rintro ⟨x, hx, y, hy, hsome⟩
    by_cases hc : p.get_longest_row_clue_len ≤ x ∨ y < p.get_height
    · rw [if_pos hc] at hsome
      obtain ⟨rfl, rfl⟩ := Prod.mk.injEq .. ▸ Option.some.inj hsome
      exact ⟨hx, hy, hc⟩
    · rw [if_neg hc] at hsome
      exact absurd hsome (Option.noConfusion)
  · rintro ⟨ha, hb, hc⟩
    exact ⟨a, ha, b, hb, by rw [if_pos hc]⟩

/-- The `else` branch of `input_event_system` is taken exactly on the play
region. -/
lemma classify_play_iff (p : Puzzle) (x y : Int) :
    classify p x y = Region.Play ↔
      ((p.get_longest_row_clue_len : Int) ≤ x ∧ y < (p.get_height : Int)) := by
  unfold classify
  split_ifs with h1 h2 <;> simp <;> omega

/-- A remote (`from_player = false`) event makes the `set_cell` closure send
nothing. -/
lemma set_cell_closure_snd_remote (p : Puzzle) (x y : Int) (c : Cell) :
    (set_cell_closure p false x y c).2 = [] := by
  unfold set_cell_closure
  dsimp only
  split_ifs <;> simp_all

/-- The tile loop accumulates no messages for a remote event. -/
lemma tiles_foldl_snd_remote (ev : InputEvent) (h : ev.from_player = false) :
    ∀ (ts : List (Nat × Nat)) (p0 : Puzzle) (ms : List (String × String)),
      (ts.foldl (tile_step ev) (p0, ms)).2 = ms := by
  intro ts
  induction ts with
  | nil => intro p0 ms; rfl
  | cons t ts ih =>
      intro p0 ms
      simp only [List.foldl_cons]
      by_cases hm : (t.1 : Int) = ev.x ∧ (t.2 : Int) = ev.y
      · simp only [tile_step, if_pos hm]
        rw [ih]
        rw [h, set_cell_closure_snd_remote, List.append_nil]
      · simp only [tile_step, if_neg hm]
        exact ih p0 ms

/-- A tile matches the event's coordinates exactly when it is the pinned
pair `(a, b)` (the `f32` equality comparisons on integral coordinates are the
injective `Nat → Int` casts). -/
lemma tile_match_iff {ev : InputEvent} {a b : Nat}
    (hx : (a : Int) = ev.x) (hy : (b : Int) = ev.y) (t : Nat × Nat) :
    ((t.1 : Int) = ev.x ∧ (t.2 : Int) = ev.y) ↔ t = (a, b) := by
  rw [← hx, ← hy, Nat.cast_inj, Nat.cast_inj, Prod.ext_iff]

/-- A stretch of the tile loop containing no matching tile leaves the
accumulator unchanged. -/
lemma tiles_foldl_no_match (ev : InputEvent) :
    ∀ (ts : List (Nat × Nat)) (acc : Puzzle × List (String × String)),
      (∀ t ∈ ts, ¬((t.1 : Int) = ev.x ∧ (t.2 : Int) = ev.y)) →
      ts.foldl (tile_step ev) acc = acc := by
  intro ts
  induction ts with
  | nil => intro acc _; rfl
  | cons t ts ih =>
      intro acc hno
      simp only [List.foldl_cons]
      rw [tile_step, if_neg (hno t (List.mem_cons_self t ts))]
      exact ih acc (fun u hu => hno u (List.mem_cons_of_mem t hu))

/-- When exactly one spawned tile matches the event's coordinates, the tile
loop is one application of the `set_cell` closure. -/
lemma tiles_foldl_count_one (ev : InputEvent) (a b : Nat)
    (hx : (a : Int) = ev.x) (hy : (b : Int) = ev.y) :
    ∀ (ts : List (Nat × Nat)), ts.count (a, b) = 1 →
    ∀ acc : Puzzle × List (String × String),
      ts.foldl (tile_step ev) acc =
        ((set_cell_closure acc.1 ev.from_player ev.x ev.y (actionCell ev.action)).1,
         acc.2 ++ (set_cell_closure acc.1 ev.from_player ev.x ev.y (actionCell ev.action)).2) := by
  intro ts
  induction ts with
  | nil => intro h; simp at h
  | cons t ts ih =>
      intro h acc
      by_cases ht : t = (a, b)
      · subst ht
        have hc0 : ts.count (a, b) = 0 := by
          have := List.count_cons_self (a, b) ts
          omega
        simp only [List.foldl_cons]
        rw [tile_step, if_pos ((tile_match_iff hx hy (a, b)).mpr rfl)]
        exact tiles_foldl_no_match ev ts _ (fun u hu hmatch => by
          have hub : u = (a, b) := (tile_match_iff hx hy u).mp hmatch
          exact (List.count_eq_zero.mp hc0) (hub ▸ hu))
      · have hcnt : ts.count (a, b) = 1 := by
          rw [List.count_cons] at h
          simp [ht] at h
          omega
        simp only [List.foldl_cons]
        rw [tile_step, if_neg (fun hmatch => ht ((tile_match_iff hx hy t).mp hmatch))]
        exact ih hcnt acc

/-- One step of the board-update loop appends the decoded event (if the
character is in the alphabet) and the warning (if it is not). -/
lemma board_update_step_eq (p : Puzzle) (cells : List Char)
    (acc : List InputEvent × List String) (xy : Nat × Nat) :
    board_update_step p cells acc xy =
      (acc.1 ++ (board_update_decode p cells xy).toList,
       acc.2 ++ (board_update_warn p cells xy).toList) := by
  unfold board_update_step board_update_decode board_update_warn
  split <;> simp_all [List.getElem?_eq_none]

/-- The full board-update loop is the concatenation of the per-position
decodes and warnings. -/
lemma foldl_board_update_step (p : Puzzle) (cells : List Char) :
    ∀ (l : List (Nat × Nat)) (acc : List InputEvent × List String),
      l.foldl (board_update_step p cells) acc =
        (acc.1 ++ l.filterMap (board_update_decode p cells),
         acc.2 ++ l.filterMap (board_update_warn p cells)) := by
  intro l
  induction l with
  | nil => intro acc; simp
  | cons xy l ih =>
      intro acc
      simp only [List.foldl_cons, List.filterMap_cons]
      rw [board_update_step_eq, ih]
      cases hd : board_update_decode p cells xy <;>
        cases hw : board_update_warn p cells xy <;>
          simp [List.append_assoc]

/-- Writing a cell then reading it back at in-bounds play coordinates yields
the written state. -/
lemma get_cell_set_cell_self (p : Puzzle) (gx gy : Nat)
    (hlen : p.cells.length = p.width * p.height)
    (hgx : gx < p.width) (hgy : gy < p.height) (c : Cell) :
    (p.set_cell gx gy c).get_cell gx gy = c := by
  unfold Puzzle.get_cell Puzzle.set_cell
  have hidx : gy * p.width + gx < p.cells.length := by
    rw [hlen]
    calc gy * p.width + gx < gy * p.width + p.width := by omega
    _ = (gy + 1) * p.width := by ring
    _ ≤ p.height * p.width := Nat.mul_le_mul_right _ (by omega)
    _ = p.width * p.height := Nat.mul_comm _ _
  rw [List.getD_eq_getElem _ _ (by simpa using hidx)]
  simp [List.getElem_set_self]

end Lemmas

/-- C3: over the in-bounds tile-index domain, the `if`/`else if`/`else`
chain's region classification is characterized exactly as the spec states
it — `Control` iff `x < longest-row-clue-length ∧ y ≥ height`, the clue
regions iff exactly one of the two conditions holds, and `Play` iff
`x ≥ longest-row-clue-length ∧ y < height`; being a total function into the
region type, the classification is thereby mutually exclusive and
collectively exhaustive on that domain. -/
theorem classify_partition (p : Puzzle) (x y : Int)
    (hx0 : 0 ≤ x) (hxW : x < (p.totalW : Int))
    (hy0 : 0 ≤ y) (hyH : y < (p.totalH : Int)) :
    (classify p x y = Region.Control ↔
        (x < (p.get_longest_row_clue_len : Int) ∧ (p.get_height : Int) ≤ y)) ∧
    ((classify p x y = Region.ClueRow ∨ classify p x y = Region.ClueColumn) ↔
        ((x < (p.get_longest_row_clue_len : Int) ∧ ¬ (p.get_height : Int) ≤ y) ∨
         ((p.get_height : Int) ≤ y ∧ ¬ x < (p.get_longest_row_clue_len : Int)))) ∧
    (classify p x y = Region.Play ↔
        ((p.get_longest_row_clue_len : Int) ≤ x ∧ y < (p.get_height : Int))) := by
  unfold classify
  split_ifs with h1 h2 h3 <;> refine ⟨?_, ?_, ?_⟩ <;> simp <;> omega

/-- Witness for C3 at a concrete puzzle and tile index. -/
theorem classify_partition_witness :
    (classify { width := 2, height := 2, rowClues := [[1], [2]],
                colClues := [[1], [1]], cells := List.replicate 4 Cell.Empty } 1 1
      = Region.Play) ∧
    ((1 : Int) ≤ 1 ∧ (1 : Int) < 2) := by
  refine ⟨?_, by decide⟩
  have h := classify_partition
    { width := 2, height := 2, rowClues := [[1], [2]],
      colClues := [[1], [1]], cells := List.replicate 4 Cell.Empty } 1 1
    (by decide) (by decide) (by decide) (by decide)
  exact h.2.2.mpr (by decide)

/-- C10: in the play branch, a matching spawned tile pins the event's tile
coordinates inside the board, so the grid-local conversion
`x - longest_row_clue_len` cannot underflow and the grid access is
in-bounds. -/
theorem play_branch_in_bounds (p : Puzzle) (x y : Int) (tx ty : Nat)
    (hplay : classify p x y = Region.Play)
    (htile : (tx, ty) ∈ spawnSet p)
    (hx : (tx : Int) = x) (hy : (ty : Int) = y) :
    p.get_longest_row_clue_len ≤ x.toNat ∧
    x.toNat - p.get_longest_row_clue_len < p.get_width ∧
    y.toNat < p.get_height := by
  rw [classify_play_iff] at hplay
  rw [mem_spawnSet] at htile
  obtain ⟨hW, _, _⟩ := htile
  have hW' : tx < p.get_width + p.get_longest_row_clue_len := hW
  omega

/-- Witness for C10 at a concrete puzzle and spawned tile. -/
theorem play_branch_in_bounds_witness :
    (1 : Nat) ≤ 1 ∧ 1 - 1 < 1 ∧ 0 < 1 := by
  have h := play_branch_in_bounds
    { width := 1, height := 1, rowClues := [[1]], colClues := [[1]],
      cells := [Cell.Empty] } 1 0 1 0
    (by decide) (by decide) (by decide) (by decide)
  simpa using h

/-- C1: for an `InputEvent` resolved to the play region (with its uniquely
matching spawned tile), the cell write happens iff the action's target state
differs from the current state; when they already agree nothing is written
and nothing is sent; and for a local event the outbound delta is sent iff
the state actually changed. -/
theorem play_write_iff_state_change (s : EngineState) (ev : InputEvent) (a b : Nat)
    (hlen : s.p.cells.length = s.p.width * s.p.height)
    (hplay : classify s.p ev.x ev.y = Region.Play)
    (hx : (a : Int) = ev.x) (hy : (b : Int) = ev.y)
    (hcount : s.tiles.count (a, b) = 1)
    (hbW : a < s.p.totalW) :
    ((input_event_system s ev).1.p = s.p ↔
        s.p.get_cell (a - s.p.get_longest_row_clue_len) b = actionCell ev.action) ∧
    (s.p.get_cell (a - s.p.get_longest_row_clue_len) b = actionCell ev.action →
        (input_event_system s ev).2 = []) ∧
    (ev.from_player = true →
      ((input_event_system s ev).2 =
          [("c", toString (s.p.get_pos (a - s.p.get_longest_row_clue_len) b)
              ++ "," ++ cellStr (actionCell ev.action))] ↔
        s.p.get_cell (a - s.p.get_longest_row_clue_len) b ≠ actionCell ev.action)) := by
  obtain ⟨hL, hH⟩ := (classify_play_iff s.p ev.x ev.y).mp hplay
  have hxa : ev.x.toNat = a := by omega
  have hyb : ev.y.toNat = b := by omega
  have hbh : b < s.p.get_height := by omega
  have haL : s.p.get_longest_row_clue_len ≤ a := by omega
  have hgx : a - s.p.get_longest_row_clue_len < s.p.width := by
    have : a < s.p.get_width + s.p.get_longest_row_clue_len := hbW
    simp only [Puzzle.get_width] at this
    omega
  have h1 : ¬(ev.x < (s.p.get_longest_row_clue_len : Int) ∧
      ev.y ≥ (s.p.get_height : Int)) := fun h => absurd h.1 (not_lt.mpr hL)
  have h2 : ¬(ev.x < (s.p.get_longest_row_clue_len : Int) ∨
      ev.y ≥ (s.p.get_height : Int)) := by
    rintro (h | h)
    · exact absurd h (not_lt.mpr hL)
    · exact absurd hH (not_lt.mpr h)
  have hres : input_event_system s ev =
      ({ s with p := (set_cell_closure s.p ev.from_player ev.x ev.y (actionCell ev.action)).1 },
       (set_cell_closure s.p ev.from_player ev.x ev.y (actionCell ev.action)).2) := by
    unfold input_event_system
    rw [if_neg h1, if_neg h2]
    dsimp only
    rw [tiles_foldl_count_one ev a b hx hy s.tiles hcount (s.p, [])]
    rw [List.nil_append]
  rw [hres]
  by_cases hc : s.p.get_cell (a - s.p.get_longest_row_clue_len) b = actionCell ev.action
  · have hclosure :
        set_cell_closure s.p ev.from_player ev.x ev.y (actionCell ev.action) = (s.p, []) := by
      unfold set_cell_closure
      dsimp only
      rw [hxa, hyb, if_neg (by simpa using hc)]
    rw [hclosure]
    refine ⟨by simpa using hc, fun _ => rfl, fun _ => ?_⟩
    simp [hc]
  · have hclosure :
        set_cell_closure s.p ev.from_player ev.x ev.y (actionCell ev.action) =
          (s.p.set_cell (a - s.p.get_longest_row_clue_len) b (actionCell ev.action),
           if ev.from_player then
             [("c", toString (s.p.get_pos (a - s.p.get_longest_row_clue_len) b)
                 ++ "," ++ cellStr (actionCell ev.action))]
           else []) := by
      unfold set_cell_closure
      dsimp only
      rw [hxa, hyb, if_pos (by simpa using hc)]
      rfl
    rw [hclosure]
    have hne : s.p.set_cell (a - s.p.get_longest_row_clue_len) b (actionCell ev.action) ≠ s.p := by
      intro heq
      have hw := get_cell_set_cell_self s.p (a - s.p.get_longest_row_clue_len) b hlen hgx hbh
        (actionCell ev.action)
      rw [heq] at hw
      exact hc hw
    refine ⟨⟨fun h => absurd h hne, fun h => absurd h hc⟩, fun h => absurd h hc, fun hfp => ?_⟩
    rw [hfp]
    simpa using hc

/-- Witness for C1: a local fill on an empty 1×1 play cell writes the cell
and sends exactly the delta `("c", "0,1")`. -/
theorem play_write_iff_state_change_witness :
    (input_event_system
        { p := { width := 1, height := 1, rowClues := [[1]], colClues := [[1]],
                 cells := [Cell.Empty] },
          control_action := BoardAction.Fill,
          tiles := [(1, 0)],
          clues := [] }
        { x := 1, y := 0, action := BoardAction.Fill, from_player := true }).2 =
      [("c", "0,1")] := by
  have h := play_write_iff_state_change
    { p := { width := 1, height := 1, rowClues := [[1]], colClues := [[1]],
             cells := [Cell.Empty] },
      control_action := BoardAction.Fill,
      tiles := [(1, 0)],
      clues := [] }
    { x := 1, y := 0, action := BoardAction.Fill, from_player := true }
    1 0 (by decide) (by decide) (by decide) (by decide) (by decide) (by decide)
  exact ((h.2.2 rfl).mpr (by decide))

/-- C2: an `InputEvent` with `from_player = false` never sends anything on
the sync channel, whatever the event does to the state. -/
theorem remote_event_never_sends (s : EngineState) (ev : InputEvent)
    (h : ev.from_player = false) :
    (input_event_system s ev).2 = [] := by
  unfold input_event_system
  split_ifs with h1 h2
  · rfl
  · rfl
  · exact tiles_foldl_snd_remote ev h s.tiles s.p []

/-- Witness for C2: a remote fill event on a play cell that does change
state still sends nothing. -/
theorem remote_event_never_sends_witness :
    (input_event_system
      { p := { width := 1, height := 1, rowClues := [[1]], colClues := [[1]],
               cells := [Cell.Empty] },
        control_action := BoardAction.Fill,
        tiles := [(1, 0)],
        clues := [] }
      { x := 1, y := 0, action := BoardAction.Fill, from_player := false }).2 = [] :=
  remote_event_never_sends _ _ rfl

/-- C5: a full-board cells update of the wrong length yields the size
warning and no event at all (so no cell is touched); a correctly sized
update yields, position by position in row-major order, exactly one remote
event per in-alphabet character and exactly one warning per out-of-alphabet
character — the offending cell is skipped, the rest are applied — and the
(total) function never crashes. -/
theorem board_update_rejects_and_skips (p : Puzzle) (cells : List Char) :
    (p.get_width * p.get_height ≠ cells.length →
      board_update_event_system p cells =
        ([], ["Invalid BoardUpdateEvent, Incorrect size: " ++ toString cells.length
              ++ ", Expected: " ++ toString (p.get_width * p.get_height)])) ∧
    (p.get_width * p.get_height = cells.length →
      board_update_event_system p cells =
        ((rowMajor p.get_width p.get_height).filterMap (board_update_decode p cells),
         (rowMajor p.get_width p.get_height).filterMap (board_update_warn p cells))) := by
  constructor
  · intro h
    unfold board_update_event_system
    rw [if_neg h]
  · intro h
    unfold board_update_event_system
    rw [if_pos h, foldl_board_update_step]
    simp

/-- Witness for C5: on a 2×1 board, the update string `"1Z"` applies the
first cell (one remote fill event at tile (1,0)) and skips the second with
one warning. -/
theorem board_update_rejects_and_skips_witness :
    board_update_event_system
        { width := 2, height := 1, rowClues := [[1]], colClues := [[1], []],
          cells := [Cell.Empty, Cell.Empty] } ['1', 'Z'] =
      ([{ x := 1, y := 0, action := BoardAction.Fill, from_player := false }],
       ["Invalid BoardUpdateEvent, Incorrect Cell: Z"]) := by
  have h := (board_update_rejects_and_skips
    { width := 2, height := 1, rowClues := [[1]], colClues := [[1], []],
      cells := [Cell.Empty, Cell.Empty] } ['1', 'Z']).2 rfl
  rw [h]
  decide

/-- C4 counterexample: for the 1×10 clueless puzzle, the viewport (5, 6)
takes the width-limited branch, yet the ten board rows need 50 pixels of
height against a 6-pixel viewport — the grid does not fit and the centering
origin is pushed below the viewport; and at viewport (0, 1) the computed
scale factor is 0, not strictly positive. -/
theorem resize_board_struct_cex :
    (((10 : ℚ) * (resize_board_struct
          { width := 1, height := 10, rowClues := [[], [], [], [], [], [], [], [], [], []],
            colClues := [[]], cells := List.replicate 10 Cell.Empty }
          { w := 5, h := 6 }).pixels_per_tile > 6) ∧
      (resize_board_struct
          { width := 1, height := 10, rowClues := [[], [], [], [], [], [], [], [], [], []],
            colClues := [[]], cells := List.replicate 10 Cell.Empty }
          { w := 5, h := 6 }).origin.2 < 0) ∧
    (resize_board_struct
        { width := 1, height := 10, rowClues := [[], [], [], [], [], [], [], [], [], []],
          colClues := [[]], cells := List.replicate 10 Cell.Empty }
        { w := 0, h := 1 }).tile_scale = 0 := by
  refine ⟨⟨?_, ?_⟩, ?_⟩ <;>
    norm_num [resize_board_struct, Puzzle.get_width, Puzzle.get_height,
      Puzzle.get_longest_row_clue_len, Puzzle.get_longest_column_clue_len, TILE_SIZE]

/-- C4 amended: for a positive viewport and a puzzle with nonzero total
dimensions, the scale factor and pixels-per-tile are strictly positive, the
limiting axis (chosen by comparing the viewport's width and height, width
only when strictly smaller) is filled exactly with origin 0 there, and the
other axis's origin is the centering offset — but the grid is not guaranteed
to fit inside the viewport on the non-limiting axis. -/
theorem resize_board_struct_amended (p : Puzzle) (win : WinSize)
    (hw : 0 < win.w) (hh : 0 < win.h)
    (hW : 0 < p.totalW) (hH : 0 < p.totalH) :
    0 < (resize_board_struct p win).tile_scale ∧
    0 < (resize_board_struct p win).pixels_per_tile ∧
    (win.w < win.h →
      ((p.totalW : ℚ) * (resize_board_struct p win).pixels_per_tile = win.w ∧
       (resize_board_struct p win).origin.1 = 0 ∧
       (resize_board_struct p win).origin.2 =
         (win.h - (p.totalH : ℚ) * (resize_board_struct p win).pixels_per_tile) / 2)) ∧
    (¬ win.w < win.h →
      ((p.totalH : ℚ) * (resize_board_struct p win).pixels_per_tile = win.h ∧
       (resize_board_struct p win).origin.2 = 0 ∧
       (resize_board_struct p win).origin.1 =
         (win.w - (p.totalW : ℚ) * (resize_board_struct p win).pixels_per_tile) / 2)) := by
  have hWq : (0 : ℚ) < ((p.get_width + p.get_longest_row_clue_len : Nat) : ℚ) := by
    exact_mod_cast hW
  have hHq : (0 : ℚ) < ((p.get_height + p.get_longest_column_clue_len : Nat) : ℚ) := by
    exact_mod_cast hH
  unfold resize_board_struct
  split_ifs with hlt <;> dsimp only <;> unfold Puzzle.totalW Puzzle.totalH
  · refine ⟨?_, ?_, fun _ => ⟨?_, rfl, rfl⟩, fun hn => absurd hlt hn⟩
    · have : (0 : ℚ) < win.w / ((p.get_width + p.get_longest_row_clue_len : Nat) : ℚ) :=
        div_pos hw hWq
      simp only [TILE_SIZE]
      positivity
    · exact div_pos hw hWq
    · rw [mul_comm, div_mul_cancel₀ _ (ne_of_gt hWq)]
  · refine ⟨?_, ?_, fun hl => absurd hl hlt, fun _ => ⟨?_, rfl, rfl⟩⟩
    · have : (0 : ℚ) < win.h / ((p.get_height + p.get_longest_column_clue_len : Nat) : ℚ) :=
        div_pos hh hHq
      simp only [TILE_SIZE]
      positivity
    · exact div_pos hh hHq
    · rw [mul_comm, div_mul_cancel₀ _ (ne_of_gt hHq)]

/-- Witness for the amended C4 at the 1×10 clueless puzzle and viewport
(5, 6). -/
theorem resize_board_struct_amended_witness :
    0 < (resize_board_struct
        { width := 1, height := 10, rowClues := [[], [], [], [], [], [], [], [], [], []],
          colClues := [[]], cells := List.replicate 10 Cell.Empty }
        { w := 5, h := 6 }).tile_scale :=
  (resize_board_struct_amended
    { width := 1, height := 10, rowClues := [[], [], [], [], [], [], [], [], [], []],
      colClues := [[]], cells := List.replicate 10 Cell.Empty }
    { w := 5, h := 6 } (by norm_num) (by norm_num) (by decide) (by decide)).1

/-- C8 counterexample: an inbound message with the unrecognized tag `"z"`
is dropped (no event forwarded) but, contrary to the claim, no warning
diagnostic is logged — the catch-all arm of `receive_channel_system` is
empty. -/
theorem receive_unknown_tag_cex :
    (receive_channel_system ("z", "payload")).1 = [] ∧
    (receive_channel_system ("z", "payload")).2 = [] := by
  constructor <;> rfl

/-- C8 amended: an inbound message whose tag is not `"n"` (the only tag this
code recognizes) is dropped without any state change and without logging any
warning. -/
theorem receive_unknown_tag_silent (tag payload : String) (h : tag ≠ "n") :
    receive_channel_system (tag, payload) = ([], []) := by
  simp [receive_channel_system, h]

/-- Witness for the amended C8. -/
theorem receive_unknown_tag_silent_witness :
    receive_channel_system ("q", "x") = ([], []) :=
  receive_unknown_tag_silent "q" "x" (by decide)

section SchedLemmas

/-- Tick 1 with two queued triggers: the redraw loop stores the second
trigger's size (last write wins) and queues one `DeleteTilesEvent` per
trigger. -/
lemma sched_tick_first (p : Puzzle) (win0 : WinSize) (l0 : BoardLayout)
    (e1 e2 : RedrawEvent) :
    sched_tick
      { p := p, win := win0, layout := l0, redrawQ := [e1, e2],
        deleteQ := 0, deletedQ := 0, spawnQ := 0, teardowns := 0, spawns := 0 } =
      { p := p, win := { w := e2.width, h := e2.height }, layout := l0, redrawQ := [],
        deleteQ := 2, deletedQ := 0, spawnQ := 0, teardowns := 0, spawns := 0 } := by
  unfold sched_tick spawn_tiles_event_system_step delete_tiles_event_system_step
    redraw_event_system_step
  simp [show List.range 2 = [0, 1] from rfl]

/-- Tick 2: both queued teardowns run, then the redraw system's second loop
recomputes the layout from the stored (latest) size and queues two spawns. -/
lemma sched_tick_second (p : Puzzle) (win : WinSize) (l0 : BoardLayout) :
    sched_tick
      { p := p, win := win, layout := l0, redrawQ := [],
        deleteQ := 2, deletedQ := 0, spawnQ := 0, teardowns := 0, spawns := 0 } =
      { p := p, win := win, layout := resize_board_struct p win, redrawQ := [],
        deleteQ := 0, deletedQ := 0, spawnQ := 2, teardowns := 2, spawns := 0 } := by
  unfold sched_tick spawn_tiles_event_system_step delete_tiles_event_system_step
    redraw_event_system_step
  simp [show List.range 2 = [0, 1] from rfl]

/-- Tick 3: both queued spawn passes run. -/
lemma sched_tick_third (p : Puzzle) (win : WinSize) (l : BoardLayout) (td : Nat) :
    sched_tick
      { p := p, win := win, layout := l, redrawQ := [],
        deleteQ := 0, deletedQ := 0, spawnQ := 2, teardowns := td, spawns := 0 } =
      { p := p, win := win, layout := l, redrawQ := [],
        deleteQ := 0, deletedQ := 0, spawnQ := 0, teardowns := td, spawns := 2 } := by
  unfold sched_tick spawn_tiles_event_system_step delete_tiles_event_system_step
    redraw_event_system_step
  simp [show List.range 2 = [0, 1] from rfl]

end SchedLemmas

/-- C6 counterexample: with two redraw triggers queued back-to-back, the
pipeline runs two teardown passes and two spawn (rebuild) passes — one full
cycle per trigger — not the single coalesced teardown→rebuild cycle the
claim requires. -/
theorem sched_coalescing_cex :
    (sched_tick (sched_tick (sched_tick
      { p := { width := 1, height := 1, rowClues := [[1]], colClues := [[1]],
               cells := [Cell.Empty] },
        win := { w := 1, h := 1 },
        layout := { tile_scale := 0, pixels_per_tile := 0, origin := (0, 0), h := 0, w := 0 },
        redrawQ := [{ width := 3, height := 4 }, { width := 5, height := 6 }],
        deleteQ := 0, deletedQ := 0, spawnQ := 0,
        teardowns := 0, spawns := 0 }))).spawns = 2 ∧
    (sched_tick (sched_tick (sched_tick
      { p := { width := 1, height := 1, rowClues := [[1]], colClues := [[1]],
               cells := [Cell.Empty] },
        win := { w := 1, h := 1 },
        layout := { tile_scale := 0, pixels_per_tile := 0, origin := (0, 0), h := 0, w := 0 },
        redrawQ := [{ width := 3, height := 4 }, { width := 5, height := 6 }],
        deleteQ := 0, deletedQ := 0, spawnQ := 0,
        teardowns := 0, spawns := 0 }))).teardowns = 2 := by
  constructor <;> rfl

/-- C6 amended: two redraw triggers queued back-to-back produce one
teardown→rebuild cycle per trigger (two teardown passes, then two spawn
passes — no spawn is issued before both teardowns have completed in this
run), and every rebuild uses the latest requested viewport size: the final
`WinSize` and layout come from the second trigger, never the first. -/
theorem sched_two_triggers_two_cycles (p : Puzzle) (win0 : WinSize) (l0 : BoardLayout)
    (e1 e2 : RedrawEvent) :
    (sched_tick
      { p := p, win := win0, layout := l0, redrawQ := [e1, e2],
        deleteQ := 0, deletedQ := 0, spawnQ := 0,
        teardowns := 0, spawns := 0 }).teardowns = 0 ∧
    (sched_tick
      { p := p, win := win0, layout := l0, redrawQ := [e1, e2],
        deleteQ := 0, deletedQ := 0, spawnQ := 0,
        teardowns := 0, spawns := 0 }).spawns = 0 ∧
    (sched_tick (sched_tick
      { p := p, win := win0, layout := l0, redrawQ := [e1, e2],
        deleteQ := 0, deletedQ := 0, spawnQ := 0,
        teardowns := 0, spawns := 0 })).teardowns = 2 ∧
    (sched_tick (sched_tick
      { p := p, win := win0, layout := l0, redrawQ := [e1, e2],
        deleteQ := 0, deletedQ := 0, spawnQ := 0,
        teardowns := 0, spawns := 0 })).spawns = 0 ∧
    (sched_tick (sched_tick (sched_tick
      { p := p, win := win0, layout := l0, redrawQ := [e1, e2],
        deleteQ := 0, deletedQ := 0, spawnQ := 0,
        teardowns := 0, spawns := 0 }))).teardowns = 2 ∧
    (sched_tick (sched_tick (sched_tick
      { p := p, win := win0, layout := l0, redrawQ := [e1, e2],
        deleteQ := 0, deletedQ := 0, spawnQ := 0,
        teardowns := 0, spawns := 0 }))).spawns = 2 ∧
    (sched_tick (sched_tick (sched_tick
      { p := p, win := win0, layout := l0, redrawQ := [e1, e2],
        deleteQ := 0, deletedQ := 0, spawnQ := 0,
        teardowns := 0, spawns := 0 }))).win = { w := e2.width, h := e2.height } ∧
    (sched_tick (sched_tick (sched_tick
      { p := p, win := win0, layout := l0, redrawQ := [e1, e2],
        deleteQ := 0, deletedQ := 0, spawnQ := 0,
        teardowns := 0, spawns := 0 }))).layout =
      resize_board_struct p { w := e2.width, h := e2.height } := by
  rw [sched_tick_first, sched_tick_second, sched_tick_third]
  exact ⟨rfl, rfl, rfl, rfl, rfl, rfl, rfl, rfl⟩

/-- C7: a `Replace` whose clues text fails to parse only logs the error —
the board resource (puzzle and layout) is untouched and no redraw is
requested; on parse success the new puzzle (with the cells string loaded) is
installed and exactly one rebuild is requested. -/
theorem new_board_parse_failure_retains (parse : String → Except String Puzzle)
    (win : WinSize) (b : BoardRes) (ev : NewBoardEvent) :
    (∀ e, parse ev.clues = Except.error e →
      new_board_event_system parse win b ev = (b, [], [e])) ∧
    (∀ np, parse ev.clues = Except.ok np →
      new_board_event_system parse win b ev =
        ({ p := (set_board_from_string np ev.cells).1,
           layout := resize_board_struct (set_board_from_string np ev.cells).1 win },
         [{ width := win.w, height := win.h }], [])) := by
  constructor <;> intro z hz <;> unfold new_board_event_system <;> rw [hz]

/-- Witness for C7: a failing parse leaves a concrete board untouched and
requests no redraw. -/
theorem new_board_parse_failure_retains_witness :
    new_board_event_system (fun _ => Except.error "bad clues") { w := 1, h := 1 }
      { p := { width := 1, height := 1, rowClues := [[1]], colClues := [[1]],
               cells := [Cell.Filled] },
        layout := { tile_scale := 1, pixels_per_tile := 1, origin := (0, 0), h := 2, w := 2 } }
      { clues := "x", cells := "" } =
      ({ p := { width := 1, height := 1, rowClues := [[1]], colClues := [[1]],
                cells := [Cell.Filled] },
         layout := { tile_scale := 1, pixels_per_tile := 1, origin := (0, 0), h := 2, w := 2 } },
       [], ["bad clues"]) :=
  (new_board_parse_failure_retains (fun _ => Except.error "bad clues") { w := 1, h := 1 }
    { p := { width := 1, height := 1, rowClues := [[1]], colClues := [[1]],
             cells := [Cell.Filled] },
      layout := { tile_scale := 1, pixels_per_tile := 1, origin := (0, 0), h := 2, w := 2 } }
    { clues := "x", cells := "" }).1 "bad clues" rfl

/-- C9: when the clues parse succeeds, the board swap and the rebuild happen
unconditionally — the `Result` of loading the cells string is discarded —
so a `Replace` carrying a wrong-length (hence rejected) cells string still
replaces the previous board with the freshly parsed puzzle. -/
theorem new_board_swaps_despite_bad_cells (parse : String → Except String Puzzle)
    (win : WinSize) (b : BoardRes) (ev : NewBoardEvent) (np : Puzzle)
    (hok : parse ev.clues = Except.ok np)
    (hlen : ev.cells.toList.length ≠ np.width * np.height) :
    (set_board_from_string np ev.cells).2 = false ∧
    (new_board_event_system parse win b ev).1.p = np ∧
    (new_board_event_system parse win b ev).2.1 =
      [{ width := win.w, height := win.h }] := by
  have hsb : set_board_from_string np ev.cells = (np, false) := by
    unfold set_board_from_string
    dsimp only
    rw [if_neg hlen]
  refine ⟨by rw [hsb], ?_, ?_⟩ <;> unfold new_board_event_system <;> rw [hok] <;> simp [hsb]

/-- Witness for C9: a parsed 1×1 puzzle with the length-3 cells string
`"ZZZ"` is still swapped in, with one redraw requested. -/
theorem new_board_swaps_despite_bad_cells_witness :
    (new_board_event_system
        (fun _ => Except.ok { width := 1, height := 1, rowClues := [[1]],
                              colClues := [[1]], cells := [Cell.Empty] })
        { w := 1, h := 1 }
        { p := { width := 2, height := 2, rowClues := [[], []], colClues := [[], []],
                 cells := List.replicate 4 Cell.Filled },
          layout := { tile_scale := 0, pixels_per_tile := 0, origin := (0, 0), h := 0, w := 0 } }
        { clues := "c", cells := "ZZZ" }).1.p =
      { width := 1, height := 1, rowClues := [[1]], colClues := [[1]],
        cells := [Cell.Empty] } :=
  (new_board_swaps_despite_bad_cells
    (fun _ => Except.ok { width := 1, height := 1, rowClues := [[1]],
                          colClues := [[1]], cells := [Cell.Empty] })
    { w := 1, h := 1 }
    { p := { width := 2, height := 2, rowClues := [[], []], colClues := [[], []],
             cells := List.replicate 4 Cell.Filled },
      layout := { tile_scale := 0, pixels_per_tile := 0, origin := (0, 0), h := 0, w := 0 } }
    { clues := "c", cells := "ZZZ" } _ rfl (by decide)).2.1

end PicrossW
